import Mathlib

/-!
Shallow embedding of the adanos-alert core: the aggregation job
(`groupingMessages`, `pendingMessageGroup`, `BuildMessageFinger`), the
trigger matcher (`NewTriggerMatcher`, `TriggerMatcher.Match`,
`TriggerContext.Messages`), the distributed lock manager
(`TryLock`, `TryUnLock`, `HasLock`) and the connector (`sendEventToServer`,
`Send`).  Stores are modelled as in-memory lists, store round-trips that can
fail are modelled by passing their outcome as an argument, and the
third-party expression engine is modelled by a small expression type
restricted to the fragment the development needs.
-/

namespace Adanos

/-- Event (message) lifecycle status, as used by the aggregation job. -/
inductive MessageStatus
  | pending
  | grouped
  | canceled
  | expired
  | ignored
  deriving DecidableEq, Repr

/-- Group lifecycle status. -/
inductive MessageGroupStatus
  | collecting
  | pending
  | okay
  | failed
  deriving DecidableEq, Repr

/-- The payload fields of an event, the only fields the match environment
exposes to expressions (Content, Origin, Type; Meta and Tags are read the
same way and are subsumed by the abstract matcher functions below).  The
aggregation job never mutates the payload. -/
structure MessagePayload where
  content : String
  origin : String
  type : String
  deriving DecidableEq, Repr

/-- An event as the aggregation job sees it: an id, its immutable payload,
its status and the list of group ids it was matched into. -/
structure Message where
  id : Nat
  payload : MessagePayload
  status : MessageStatus
  groupIDs : List Nat
  deriving DecidableEq, Repr

/-- A collecting/pending group row.  `expectReadyAt` is the readiness
timestamp stamped at creation from the rule's readiness policy. -/
structure MessageGroup where
  id : Nat
  ruleID : Nat
  aggregateKey : String
  type : String
  status : MessageGroupStatus
  expectReadyAt : Nat
  messageCount : Nat
  deriving DecidableEq, Repr

/-- Modelled from the spec: `MessageGroup.Ready` (the repository method used
by `pendingMessageGroup`, whose body is not in the sources) holds when the
group's expected-ready-at has passed: expected-ready-at ≤ now. -/
def MessageGroup.Ready (now : Nat) (g : MessageGroup) : Bool :=
  g.expectReadyAt ≤ now

/-- A compiled message matcher, as produced from one enabled rule.
`matchFn` is the compiled match expression: it returns (matched, ignored)
or a runtime evaluation error.  `finger` is the (total) aggregate-key
function `BuildMessageFinger (rule.AggregateRule)`, and `expectReadyAt`
is the readiness timestamp the rule stamps on groups it creates
(`Rule.ToGroupRule`). -/
structure MessageMatcher where
  ruleID : Nat
  matchFn : MessagePayload → Except String (Bool × Bool)
  finger : MessagePayload → String
  expectReadyAt : Nat

/-- The group store together with the id counter used for fresh inserts. -/
structure GroupStore where
  groups : List MessageGroup
  nextID : Nat

/-- Model of `MessageGroupRepo.CollectingGroup`: atomic find-or-insert of the
collecting group for (rule id, aggregate key, event type).  Finds an
existing collecting group with that triple, otherwise inserts a fresh one
with status collecting and the rule's readiness timestamp. -/
def collectingGroup (st : GroupStore) (ruleID : Nat) (aggKey : String)
    (typ : String) (readyAt : Nat) : MessageGroup × GroupStore :=
  match st.groups.find? (fun g =>
      g.status == MessageGroupStatus.collecting && g.ruleID == ruleID &&
      g.aggregateKey == aggKey && g.type == typ) with
  | some g => (g, st)
  | none =>
    let g : MessageGroup :=
      ⟨st.nextID, ruleID, aggKey, typ, MessageGroupStatus.collecting, readyAt, 0⟩
    (g, ⟨st.groups ++ [g], st.nextID + 1⟩)

/-- The in-run cache `collectingGroups` of `groupingMessages`, keyed by the
string "ruleID:aggregateKey:type". -/
def cacheKey (ruleID : Nat) (aggKey : String) (typ : String) : String :=
  toString ruleID ++ ":" ++ aggKey ++ ":" ++ typ

/-- Association lookup in the in-run group cache. -/
def lookupCache (cache : List (String × MessageGroup)) (key : String) :
    Option MessageGroup :=
  match cache.find? (fun kv => kv.fst == key) with
  | some kv => some kv.snd
  | none => none

/-- The aggregation pass-1 state threaded through the message traversal:
the group store and the in-run cache. -/
structure Pass1State where
  store : GroupStore
  cache : List (String × MessageGroup)

/-- The inner matcher loop of `groupingMessages` for one message:
for each matcher, evaluate the match expression; an evaluation error skips
the rule; an ignored match records the soft-match flag; a genuine match
computes the fingerprint, finds-or-creates the collecting group (through the
in-run cache backed by the store) and appends the group id to the message,
marking it grouped. -/
def runMatchers : List MessageMatcher → Message → Pass1State → Bool →
    Message × Pass1State × Bool
  | [], msg, st, canIgnore => (msg, st, canIgnore)
  | m :: ms, msg, st, canIgnore =>
    match m.matchFn msg.payload with
    | Except.error _ => runMatchers ms msg st canIgnore
    | Except.ok (matched, ignored) =>
      if matched then
        if ignored then
          runMatchers ms msg st true
        else
          let aggKey := m.finger msg.payload
          let key := cacheKey m.ruleID aggKey msg.payload.type
          match lookupCache st.cache key with
          | some grp =>
            runMatchers ms
              {msg with groupIDs := msg.groupIDs ++ [grp.id],
                        status := MessageStatus.grouped}
              st canIgnore
          | none =>
            let (grp, store') :=
              collectingGroup st.store m.ruleID aggKey msg.payload.type
                m.expectReadyAt
            runMatchers ms
              {msg with groupIDs := msg.groupIDs ++ [grp.id],
                        status := MessageStatus.grouped}
              ⟨store', st.cache ++ [(key, grp)]⟩ canIgnore
      else
        runMatchers ms msg st canIgnore

/-- Processing of one pending message in pass 1: run the matcher loop, then
apply the decision matrix to a message that is still pending (no genuine
match): ignored when some matching rule flagged it ignored, canceled
otherwise. -/
def processMessage (matchers : List MessageMatcher) (msg : Message)
    (st : Pass1State) : Message × Pass1State :=
  let r := runMatchers matchers msg st false
  let msg' := r.fst
  if msg'.status = MessageStatus.pending then
    ({msg' with status :=
        if r.snd.snd then MessageStatus.ignored else MessageStatus.canceled},
     r.snd.fst)
  else
    (msg', r.snd.fst)

/-- Pass 1 of `groupingMessages`: traverse all messages with status
pending, processing each and persisting the update in place. -/
def groupingPass1 (matchers : List MessageMatcher) :
    List Message → Pass1State → List Message × Pass1State
  | [], st => ([], st)
  | msg :: rest, st =>
    if msg.status = MessageStatus.pending then
      let p := processMessage matchers msg st
      let r := groupingPass1 matchers rest p.snd
      (p.fst :: r.fst, r.snd)
    else
      let r := groupingPass1 matchers rest st
      (msg :: r.fst, r.snd)

/-- Whether some matcher matches the message (ignored or not); evaluation
errors count as no match, as in the source's `continue`. -/
def anyMatcherMatches (matchers : List MessageMatcher) (msg : Message) : Bool :=
  matchers.any (fun m =>
    match m.matchFn msg.payload with
    | Except.ok (matched, _) => matched
    | Except.error _ => false)

/-- Pass 2 of `groupingMessages`: traverse messages with status canceled
and flip the ones that now match some rule to expired; every traversed
message is re-persisted. -/
def groupingPass2 (matchers : List MessageMatcher) (msgs : List Message) :
    List Message :=
  msgs.map (fun msg =>
    if msg.status = MessageStatus.canceled then
      if anyMatcherMatches matchers msg then
        {msg with status := MessageStatus.expired}
      else
        msg
    else
      msg)

/-- The source's `groupingMessages`: pass 1 then pass 2, threading the group store. -/
def groupingMessages (matchers : List MessageMatcher) (msgs : List Message)
    (st : Pass1State) : List Message × Pass1State :=
  let r := groupingPass1 matchers msgs st
  (groupingPass2 matchers r.fst, r.snd)

/-- Model of `MessageRepo.Count` with filter group_ids = gid: how many stored messages carry
the group id. -/
def countGroupMessages (msgs : List Message) (gid : Nat) : Nat :=
  (msgs.filter (fun m => m.groupIDs.contains gid)).length

/-- The group-pending event published on the in-process event bus. -/
structure MessageGroupPendingEvent where
  group : MessageGroup
  deriving DecidableEq, Repr

/-- The source's `pendingMessageGroup` (pass 3): traverse groups with
status collecting; each one whose readiness time has passed is recounted
from the message store, stamped with the count, transitioned to pending,
persisted, and a group-pending event carrying the mutated group is
published.  The two store round-trips can fail and their outcomes are
passed as oracles keyed by group id: when `msgRepo.Count` fails the code
only logs and `msgCount` is the zero value 0, which is stamped anyway,
still transitioning and publishing; when `groupRepo.UpdateID` fails the
mutated group is not persisted (the store keeps the old row) yet the
event is still published, and the callback returns the error.  Modelled
from the spec: the repository `Traverse` (absent from src/) stops at the
first callback error — a still-failing store error aborts the current
tick — leaving the remaining groups untouched.  Returns the store's
groups, the published events, and whether the pass ran to completion. -/
def pendingMessageGroup (now : Nat) (countFails updateFails : Nat → Bool)
    (msgs : List Message) :
    List MessageGroup →
      List MessageGroup × List MessageGroupPendingEvent × Bool
  | [] => ([], [], true)
  | g :: rest =>
    if g.status = MessageGroupStatus.collecting ∧ g.Ready now then
      let msgCount := if countFails g.id then 0
                      else countGroupMessages msgs g.id
      let g' := {g with messageCount := msgCount,
                        status := MessageGroupStatus.pending}
      if updateFails g.id then
        (g :: rest, [MessageGroupPendingEvent.mk g'], false)
      else
        let r := pendingMessageGroup now countFails updateFails msgs rest
        (g' :: r.fst, MessageGroupPendingEvent.mk g' :: r.snd.fst,
         r.snd.snd)
    else
      let r := pendingMessageGroup now countFails updateFails msgs rest
      (g :: r.fst, r.snd.fst, r.snd.snd)

/-- The persistent state the aggregation job reads and writes. -/
structure AggState where
  messages : List Message
  groups : List MessageGroup
  nextID : Nat
  deriving Repr

/-- One non-skipped run of `AggregationJob.Handle`: `groupingMessages`
followed by `pendingMessageGroup`, with a fresh in-run cache; the pass-3
store-failure oracles are threaded through.  Also returns the
group-pending events published on the bus during the run. -/
def handleAggregation (matchers : List MessageMatcher) (now : Nat)
    (countFails updateFails : Nat → Bool) (st : AggState) :
    AggState × List MessageGroupPendingEvent :=
  let r := groupingMessages matchers st.messages ⟨⟨st.groups, st.nextID⟩, []⟩
  let p := pendingMessageGroup now countFails updateFails r.fst
    r.snd.store.groups
  (⟨r.fst, p.fst, r.snd.store.nextID⟩, p.snd.fst)

/-- The source's `BuildMessageFinger`: compute the aggregate key of a message under a
rule's aggregate expression.  The expression engine is abstracted by the
`compile` and `run` arguments (the finger compiler lives outside these
sources); a compile failure yields the sentinel "[error]invalid_rule" and a
runtime evaluation failure yields "[error]parse_failed". -/
def BuildMessageFinger {α : Type} (compile : String → Option α)
    (run : α → Message → Except String String)
    (groupRule : String) (msg : Message) : String :=
  match compile groupRule with
  | none => "[error]invalid_rule"
  | some finger =>
    match run finger msg with
    | Except.error _ => "[error]parse_failed"
    | Except.ok groupKey => groupKey

/-- Values of the embedded expression engine. -/
inductive Value
  | vBool (b : Bool)
  | vInt (n : Int)
  | vStr (s : String)
  deriving DecidableEq, Repr

/-- The fragment of the third-party expression language this development
needs: literals, boolean connectives, equality, integer division (a source
of runtime errors) and the group's message count read from the trigger
context. -/
inductive TExpr
  | boolLit (b : Bool)
  | intLit (n : Int)
  | strLit (s : String)
  | andE (a b : TExpr)
  | orE (a b : TExpr)
  | notE (a : TExpr)
  | eqE (a b : TExpr)
  | divE (a b : TExpr)
  | groupMessageCount
  deriving DecidableEq, Repr

/-- A trigger (action) of a rule: its id and its condition expression. -/
structure Trigger where
  id : Nat
  preCondition : String
  deriving DecidableEq, Repr

/-- The trigger evaluation context: the group, the lazy message projection
(`messageCallback` is the fetch closure, `onceDone`/`messages` the
one-shot memoization state) and, for the model, a counter of how many
times the fetch was realized. -/
structure TriggerContext where
  Group : MessageGroup
  messageCallback : Option (List Message)
  onceDone : Bool
  messages : List Message
  fetches : Nat
  deriving DecidableEq, Repr

/-- The source's `TriggerContext.Messages`: return the messages of the group.  The
one-shot primitive runs the fetch only on the first call (and only when a
callback is installed), memoizing its result; later calls return the
memoized list without re-fetching. -/
def TriggerContext.Messages (tc : TriggerContext) :
    List Message × TriggerContext :=
  if tc.onceDone then
    (tc.messages, tc)
  else
    match tc.messageCallback with
    | some ms =>
      (ms, {tc with onceDone := true, messages := ms,
                    fetches := tc.fetches + 1})
    | none =>
      (tc.messages, {tc with onceDone := true})

/-- Follows the spec's words, for comparison with `TriggerContext.Messages`:
a projection `Messages(n)` that returns up to n events from the group. -/
def specMessagesUpTo (n : Nat) (tc : TriggerContext) : List Message :=
  (TriggerContext.Messages tc).fst.take n

/-- Evaluation of the embedded expression language over a trigger context.
Type mismatches and division by zero are runtime errors. -/
def evalT : TExpr → TriggerContext → Except String Value
  | TExpr.boolLit b, _ => Except.ok (Value.vBool b)
  | TExpr.intLit n, _ => Except.ok (Value.vInt n)
  | TExpr.strLit s, _ => Except.ok (Value.vStr s)
  | TExpr.andE a b, tc =>
    match evalT a tc, evalT b tc with
    | Except.ok (Value.vBool x), Except.ok (Value.vBool y) =>
      Except.ok (Value.vBool (x && y))
    | Except.error e, _ => Except.error e
    | _, Except.error e => Except.error e
    | _, _ => Except.error "type error"
  | TExpr.orE a b, tc =>
    match evalT a tc, evalT b tc with
    | Except.ok (Value.vBool x), Except.ok (Value.vBool y) =>
      Except.ok (Value.vBool (x || y))
    | Except.error e, _ => Except.error e
    | _, Except.error e => Except.error e
    | _, _ => Except.error "type error"
  | TExpr.notE a, tc =>
    match evalT a tc with
    | Except.ok (Value.vBool x) => Except.ok (Value.vBool (!x))
    | Except.error e => Except.error e
    | _ => Except.error "type error"
  | TExpr.eqE a b, tc =>
    match evalT a tc, evalT b tc with
    | Except.ok x, Except.ok y => Except.ok (Value.vBool (x == y))
    | Except.error e, _ => Except.error e
    | _, Except.error e => Except.error e
  | TExpr.divE a b, tc =>
    match evalT a tc, evalT b tc with
    | Except.ok (Value.vInt x), Except.ok (Value.vInt y) =>
      if y = 0 then Except.error "division by zero"
      else Except.ok (Value.vInt (x / y))
    | Except.error e, _ => Except.error e
    | _, Except.error e => Except.error e
    | _, _ => Except.error "type error"
  | TExpr.groupMessageCount, tc =>
    Except.ok (Value.vInt tc.Group.messageCount)

/-- The compile step of the expression engine, restricted to the literals
this development needs; anything else is a compile failure. -/
def compileCondition (s : String) : Option TExpr :=
  if s = "true" then some (TExpr.boolLit true)
  else if s = "false" then some (TExpr.boolLit false)
  else
    match s.toInt? with
    | some n => some (TExpr.intLit n)
    | none => none

/-- A compiled trigger matcher: the compiled condition and the original
trigger. -/
structure TriggerMatcher where
  program : TExpr
  trigger : Trigger
  deriving DecidableEq, Repr

/-- The source's `NewTriggerMatcher`: an empty condition is replaced by the literal
"true" before compilation; a compile failure is surfaced as `none`. -/
def NewTriggerMatcher (trigger : Trigger) : Option TriggerMatcher :=
  let condition := if trigger.preCondition = "" then "true"
                   else trigger.preCondition
  match compileCondition condition with
  | none => none
  | some program => some ⟨program, trigger⟩

/-- The source's `TriggerMatcher.Match`: run the compiled condition in the trigger
context; a runtime error yields (false, the error), a non-boolean result
yields (false, InvalidReturnVal), a boolean result is returned with no
error. -/
def TriggerMatcher.Match (m : TriggerMatcher) (tc : TriggerContext) :
    Bool × Option String :=
  match evalT m.program tc with
  | Except.error e => (false, some e)
  | Except.ok (Value.vBool b) => (b, none)
  | Except.ok _ => (false, some "InvalidReturnVal")

/-- The local state of the distributed lock manager: the remembered lease
id (0 models the nil object id) and the locked flag. -/
structure DistributeLockManager where
  lockID : Nat
  locked : Bool
  deriving DecidableEq, Repr

/-- Outcome of `lockRepo.Lock(resource, owner, ttl)`. -/
inductive LockResult
  | ok (lockID : Nat)
  | alreadyLocked
  | err (e : String)
  deriving DecidableEq, Repr

/-- Outcome of `lockRepo.Renew(lockID, ttl)`. -/
inductive RenewResult
  | ok
  | notFound
  | err (e : String)
  deriving DecidableEq, Repr

/-- The source's `DistributeLockManager.lock`: attempt a fresh acquisition.  On
`ErrAlreadyLocked` the local state is demoted (nil lock id, locked=false)
and no error is returned; any other repository error is returned wrapped,
leaving the state unchanged; on success the lease id is remembered and
locked is set. -/
def lockStep (d : DistributeLockManager) (r : LockResult) :
    DistributeLockManager × Option String :=
  match r with
  | LockResult.ok lid => (⟨lid, true⟩, none)
  | LockResult.alreadyLocked => (⟨0, false⟩, none)
  | LockResult.err e => (d, some ("acquire lock failed: " ++ e))

/-- The source's `DistributeLockManager.TryLock`: a holder renews (falling back to a
fresh acquisition when the lease is gone); a non-holder attempts a fresh
acquisition.  The outcomes of the repository calls are passed as
arguments. -/
def TryLock (d : DistributeLockManager) (renewRes : RenewResult)
    (lockRes : LockResult) : DistributeLockManager × Option String :=
  if d.locked then
    match renewRes with
    | RenewResult.ok => (d, none)
    | RenewResult.notFound => lockStep d lockRes
    | RenewResult.err e => (d, some ("renew lock failed: " ++ e))
  else
    lockStep d lockRes

/-- The source's `DistributeLockManager.TryUnLock`: a holder releases the lease at the
store; only when that release errors is the local state demoted (locked
false, lock id cleared) and the error returned.  A non-holder does
nothing.  The outcome of `lockRepo.UnLock` is passed as an argument. -/
def TryUnLock (d : DistributeLockManager) (unlockRes : Option String) :
    DistributeLockManager × Option String :=
  if d.locked then
    match unlockRes with
    | some e => (⟨0, false⟩, some e)
    | none => (d, none)
  else
    (d, none)

/-- The source's `DistributeLockManager.HasLock`. -/
def HasLock (d : DistributeLockManager) : Bool :=
  d.locked

/-- Outcome of one HTTP round-trip of `sendEventToServer` to one server:
building the request, performing it or reading the response body can fail;
otherwise the server returned a response with some status code and body. -/
inductive HTTPOutcome
  | newRequestFail (e : String)
  | doFail (e : String)
  | readBodyFail (e : String)
  | response (statusCode : Nat) (body : String)
  deriving DecidableEq, Repr

/-- The source's `sendEventToServer`: returns an error only when building the request,
performing it or reading the response body fails; any received response is
success, its status code never inspected. -/
def sendEventToServer (outcome : HTTPOutcome) : Option String :=
  match outcome with
  | HTTPOutcome.newRequestFail e => some ("create request failed: " ++ e)
  | HTTPOutcome.doFail e => some ("request failed: " ++ e)
  | HTTPOutcome.readBodyFail e => some ("read response body failed: " ++ e)
  | HTTPOutcome.response _ _ => none

/-- The server loop of `Send`: try each server in turn, stopping at the
first one whose round-trip succeeds; the value returned is the error of
the last attempt (none when some attempt succeeded or there was no
server). -/
def sendLoop : List HTTPOutcome → Option String → Option String
  | [], acc => acc
  | o :: rest, _ =>
    match sendEventToServer o with
    | none => none
    | some e => sendLoop rest (some e)

/-- The source's `Send`: serialize the event once and try the configured servers in
order.  Each server's round-trip outcome is passed as an argument. -/
def Send (outcomes : List HTTPOutcome) : Option String :=
  sendLoop outcomes none

/-- The matcher genuinely matches the payload: matched and not ignored. -/
def isGenuine (m : MessageMatcher) (p : MessagePayload) : Bool :=
  match m.matchFn p with
  | Except.ok (true, false) => true
  | _ => false

/-- The matcher matches the payload but flags it ignored (soft match). -/
def isIgnoredMatch (m : MessageMatcher) (p : MessagePayload) : Bool :=
  match m.matchFn p with
  | Except.ok (true, true) => true
  | _ => false

/-- The matcher matches the payload at all (ignored or not); an evaluation
error counts as no match. -/
def isMatchedAtAll (m : MessageMatcher) (p : MessagePayload) : Bool :=
  match m.matchFn p with
  | Except.ok (matched, _) => matched
  | Except.error _ => false

/-- How many matchers genuinely match the payload. -/
def countGenuine (matchers : List MessageMatcher) (p : MessagePayload) : Nat :=
  (matchers.filter (fun m => isGenuine m p)).length

/-- The in-run cache only holds groups present in the store (true when the
run starts with an empty cache and preserved by the matcher loop). -/
def cacheCoherent (st : Pass1State) : Prop :=
  ∀ kv ∈ st.cache, kv.snd ∈ st.store.groups

/-- Sample values used by the concrete witnesses below. -/
def sampleGroup : MessageGroup :=
  ⟨1, 1, "k", "t", MessageGroupStatus.collecting, 0, 0⟩

def sampleContext : TriggerContext := ⟨sampleGroup, none, false, [], 0⟩

def samplePayload : MessagePayload := ⟨"c", "o", "t"⟩

def sampleMessages : List Message :=
  [⟨1, samplePayload, MessageStatus.grouped, [1]⟩,
   ⟨2, samplePayload, MessageStatus.grouped, [1]⟩,
   ⟨3, samplePayload, MessageStatus.grouped, [1]⟩,
   ⟨4, samplePayload, MessageStatus.grouped, [1]⟩,
   ⟨5, samplePayload, MessageStatus.grouped, [1]⟩,
   ⟨6, samplePayload, MessageStatus.grouped, [1]⟩]

def sampleContextSix : TriggerContext :=
  ⟨sampleGroup, some sampleMessages, false, [], 0⟩

def sampleMatcherGenuine : MessageMatcher :=
  ⟨1, fun _ => Except.ok (true, false), fun _ => "k", 5⟩

def sampleMatcherError : MessageMatcher :=
  ⟨2, fun _ => Except.error "boom", fun _ => "k", 5⟩

def sampleMatcherIgnored : MessageMatcher :=
  ⟨3, fun _ => Except.ok (true, true), fun _ => "k", 5⟩

def sampleMessagePending : Message :=
  ⟨1, samplePayload, MessageStatus.pending, []⟩

def emptyPass1 : Pass1State := ⟨⟨[], 0⟩, []⟩

/-- C4: for every trigger whose condition expression is the empty string,
constructing a trigger matcher succeeds and evaluating it in any trigger
context returns true: the empty condition is compiled as the constant
true. -/
theorem empty_trigger_condition_true (trigger : Trigger)
    (h : trigger.preCondition = "") :
    ∃ m : TriggerMatcher, NewTriggerMatcher trigger = some m ∧
      ∀ tc : TriggerContext, m.Match tc = (true, none) := by
  refine ⟨⟨TExpr.boolLit true, trigger⟩, ?_, fun tc => rfl⟩
  simp [NewTriggerMatcher, h, compileCondition]

theorem empty_trigger_condition_true_witness :
    (Trigger.mk 1 "").preCondition = "" ∧
      ∃ m : TriggerMatcher, NewTriggerMatcher (Trigger.mk 1 "") = some m ∧
        ∀ tc : TriggerContext, m.Match tc = (true, none) :=
  ⟨rfl, empty_trigger_condition_true (Trigger.mk 1 "") rfl⟩

/-- C5: a runtime evaluation failure of a trigger expression makes
`TriggerMatcher.Match` return false together with the error, a
non-boolean result likewise returns false with an error, and the
aggregator's matcher loop skips a rule whose match evaluation errors,
continuing with the remaining rules unchanged. -/
theorem eval_error_no_match :
    (∀ (m : TriggerMatcher) (tc : TriggerContext) (e : String),
        evalT m.program tc = Except.error e →
        m.Match tc = (false, some e)) ∧
    (∀ (m : TriggerMatcher) (tc : TriggerContext) (v : Value),
        evalT m.program tc = Except.ok v → (∀ b, v ≠ Value.vBool b) →
        m.Match tc = (false, some "InvalidReturnVal")) ∧
    (∀ (pre post : List MessageMatcher) (bad : MessageMatcher)
        (msg : Message) (st : Pass1State) (ci : Bool) (e : String),
        bad.matchFn msg.payload = Except.error e →
        runMatchers (pre ++ bad :: post) msg st ci =
          runMatchers (pre ++ post) msg st ci) := by
  refine ⟨?_, ?_, ?_⟩
  · intro m tc e h
    simp [TriggerMatcher.Match, h]
  · intro m tc v h hv
    cases v with
    | vBool b => exact absurd rfl (hv b)
    | vInt n => simp [TriggerMatcher.Match, h]
    | vStr s => simp [TriggerMatcher.Match, h]
  · intro pre post bad msg st ci e h
    induction pre generalizing msg st ci with
    | nil => simp [runMatchers, h]
    | cons m t ih =>
      cases hm : m.matchFn msg.payload with
      | error e2 =>
        simp only [List.cons_append, runMatchers, hm]
        exact ih msg st ci h
      | ok v =>
        obtain ⟨matched, ignored⟩ := v
        cases matched with
        | false =>
          simp only [List.cons_append, runMatchers, hm, Bool.false_eq_true,
            if_false]
          exact ih msg st ci h
        | true =>
          cases ignored with
          | true =>
            simp only [List.cons_append, runMatchers, hm, if_true]
            exact ih msg st true h
          | false =>
            cases hl : lookupCache st.cache
                (cacheKey m.ruleID (m.finger msg.payload)
                  msg.payload.type) with
            | some grp =>
              simp only [List.cons_append, runMatchers, hm, hl, if_true,
                Bool.false_eq_true, if_false]
              exact ih _ _ ci h
            | none =>
              simp only [List.cons_append, runMatchers, hm, hl, if_true,
                Bool.false_eq_true, if_false]
              exact ih _ _ ci h

theorem eval_error_no_match_witness :
    (TriggerMatcher.mk (TExpr.divE (TExpr.intLit 1) (TExpr.intLit 0))
        (Trigger.mk 1 "1/0")).Match sampleContext =
      (false, some "division by zero") ∧
    (TriggerMatcher.mk (TExpr.intLit 42) (Trigger.mk 2 "42")).Match
        sampleContext = (false, some "InvalidReturnVal") ∧
    runMatchers ([] ++ sampleMatcherError :: []) sampleMessagePending
        emptyPass1 false =
      runMatchers ([] ++ []) sampleMessagePending emptyPass1 false :=
  ⟨eval_error_no_match.1 _ sampleContext "division by zero" rfl,
   eval_error_no_match.2.1 _ sampleContext (Value.vInt 42) rfl
     (fun _b hb => Value.noConfusion hb),
   eval_error_no_match.2.2 [] [] sampleMatcherError sampleMessagePending
     emptyPass1 false "boom" rfl⟩

/-- C6: if computing a fingerprint fails — the aggregate expression does
not compile, or its evaluation over the event errors — the aggregate key
is a sentinel beginning with "[error]" ("[error]invalid_rule" for compile
failure, "[error]parse_failed" for evaluation failure), and all erroneous
events of the rule share a single key. -/
theorem finger_error_sentinel {α : Type} (compile : String → Option α)
    (run : α → Message → Except String String) (rule : String)
    (msg1 msg2 : Message) :
    (compile rule = none →
       BuildMessageFinger compile run rule msg1 = "[error]invalid_rule" ∧
       (∃ s, BuildMessageFinger compile run rule msg1 = "[error]" ++ s) ∧
       BuildMessageFinger compile run rule msg1 =
         BuildMessageFinger compile run rule msg2) ∧
    (∀ (f : α) (e1 e2 : String), compile rule = some f →
       run f msg1 = Except.error e1 → run f msg2 = Except.error e2 →
       BuildMessageFinger compile run rule msg1 = "[error]parse_failed" ∧
       (∃ s, BuildMessageFinger compile run rule msg1 = "[error]" ++ s) ∧
       BuildMessageFinger compile run rule msg1 =
         BuildMessageFinger compile run rule msg2) := by
  constructor
  · intro hc
    refine ⟨by simp [BuildMessageFinger, hc], ⟨"invalid_rule", ?_⟩,
      by simp [BuildMessageFinger, hc]⟩
    simp [BuildMessageFinger, hc]
  · intro f e1 e2 hc h1 h2
    refine ⟨by simp [BuildMessageFinger, hc, h1], ⟨"parse_failed", ?_⟩,
      by simp [BuildMessageFinger, hc, h1, h2]⟩
    simp [BuildMessageFinger, hc, h1]

theorem finger_error_sentinel_witness :
    (BuildMessageFinger (fun _ => (none : Option Unit))
        (fun _ _ => Except.error "x") "agg" sampleMessagePending =
      "[error]invalid_rule" ∧
     (∃ s, BuildMessageFinger (fun _ => (none : Option Unit))
        (fun _ _ => Except.error "x") "agg" sampleMessagePending =
       "[error]" ++ s) ∧
     BuildMessageFinger (fun _ => (none : Option Unit))
        (fun _ _ => Except.error "x") "agg" sampleMessagePending =
       BuildMessageFinger (fun _ => (none : Option Unit))
        (fun _ _ => Except.error "x") "agg"
        ⟨2, samplePayload, MessageStatus.pending, []⟩) ∧
    (BuildMessageFinger (fun _ => some ())
        (fun _ _ => Except.error "boom") "agg" sampleMessagePending =
      "[error]parse_failed" ∧
     (∃ s, BuildMessageFinger (fun _ => some ())
        (fun _ _ => Except.error "boom") "agg" sampleMessagePending =
       "[error]" ++ s) ∧
     BuildMessageFinger (fun _ => some ())
        (fun _ _ => Except.error "boom") "agg" sampleMessagePending =
       BuildMessageFinger (fun _ => some ())
        (fun _ _ => Except.error "boom") "agg"
        ⟨2, samplePayload, MessageStatus.pending, []⟩) :=
  ⟨(finger_error_sentinel (fun _ => (none : Option Unit))
      (fun _ _ => Except.error "x") "agg" sampleMessagePending
      ⟨2, samplePayload, MessageStatus.pending, []⟩).1 rfl,
   (finger_error_sentinel (fun _ => some ())
      (fun _ _ => Except.error "boom") "agg" sampleMessagePending
      ⟨2, samplePayload, MessageStatus.pending, []⟩).2
      () "boom" "boom" rfl rfl rfl⟩

/-- C7: a node not holding the lease whose fresh acquisition reports
ErrAlreadyLocked gets no error back from TryLock, and afterwards HasLock
is false with the stored lock id cleared; any other repository error is
returned from TryLock. -/
theorem trylock_already_locked (d : DistributeLockManager)
    (r : RenewResult) (h : d.locked = false) :
    TryLock d r LockResult.alreadyLocked =
      (DistributeLockManager.mk 0 false, none) ∧
    HasLock (TryLock d r LockResult.alreadyLocked).fst = false ∧
    (∀ e, TryLock d r (LockResult.err e) =
      (d, some ("acquire lock failed: " ++ e))) := by
  refine ⟨?_, ?_, fun e => ?_⟩ <;> simp [TryLock, h, lockStep, HasLock]

theorem trylock_already_locked_witness :
    (DistributeLockManager.mk 7 false).locked = false ∧
    (TryLock (DistributeLockManager.mk 7 false) RenewResult.ok
        LockResult.alreadyLocked =
      (DistributeLockManager.mk 0 false, none) ∧
     HasLock (TryLock (DistributeLockManager.mk 7 false) RenewResult.ok
        LockResult.alreadyLocked).fst = false ∧
     (∀ e, TryLock (DistributeLockManager.mk 7 false) RenewResult.ok
        (LockResult.err e) =
       (DistributeLockManager.mk 7 false,
        some ("acquire lock failed: " ++ e)))) :=
  ⟨rfl, trylock_already_locked (DistributeLockManager.mk 7 false)
      RenewResult.ok rfl⟩

/-- C8 counterexample: a node holding lease id 5 whose store release
succeeds: TryUnLock returns no error yet leaves the local locked flag
set, so HasLock afterwards is still true — the claim that the local state
reports locked=false after TryUnLock fails on the success path. -/
theorem tryunlock_success_keeps_lock :
    TryUnLock (DistributeLockManager.mk 5 true) none =
      (DistributeLockManager.mk 5 true, none) ∧
    HasLock (TryUnLock (DistributeLockManager.mk 5 true) none).fst =
      true :=
  ⟨rfl, rfl⟩

/-- C8 amended: when a node holding the lease calls TryUnLock, the store
release is attempted; an error from the store's UnLock demotes the local
state to locked=false with the lock id cleared and returns the error,
while a successful release leaves the local state unchanged (the locked
flag stays set). -/
theorem tryunlock_error_demotes (d : DistributeLockManager)
    (h : d.locked = true) :
    (∀ e, TryUnLock d (some e) =
        (DistributeLockManager.mk 0 false, some e) ∧
      HasLock (TryUnLock d (some e)).fst = false) ∧
    TryUnLock d none = (d, none) := by
  refine ⟨fun e => ⟨?_, ?_⟩, ?_⟩ <;> simp [TryUnLock, h, HasLock]

theorem tryunlock_error_demotes_witness :
    (DistributeLockManager.mk 5 true).locked = true ∧
    ((∀ e, TryUnLock (DistributeLockManager.mk 5 true) (some e) =
        (DistributeLockManager.mk 0 false, some e) ∧
      HasLock (TryUnLock (DistributeLockManager.mk 5 true)
        (some e)).fst = false) ∧
     TryUnLock (DistributeLockManager.mk 5 true) none =
       (DistributeLockManager.mk 5 true, none)) :=
  ⟨rfl, tryunlock_error_demotes (DistributeLockManager.mk 5 true) rfl⟩

/-- C9 counterexample: the realized projection of a six-event group
returns all six events — the code's Messages takes no count argument and
applies no bound, diverging from the spec-shaped Messages(n) (here n = 2)
at this concrete input. -/
theorem messages_no_count_argument :
    (TriggerContext.Messages sampleContextSix).fst.length = 6 ∧
    (specMessagesUpTo 2 sampleContextSix).length = 2 ∧
    specMessagesUpTo 2 sampleContextSix ≠
      (TriggerContext.Messages sampleContextSix).fst := by
  refine ⟨rfl, rfl, fun hEq => ?_⟩
  have := congrArg List.length hEq
  simp [specMessagesUpTo, TriggerContext.Messages, sampleContextSix,
    sampleMessages] at this

/-- C9 amended: within one trigger-context evaluation the Messages
projection realizes the fetch at most once: the first call invokes the
message callback and memoizes its result (the fetch counter increments
once), and every later call returns the memoized sequence without
re-fetching; the projection takes no count argument and returns all
events the callback produced. -/
theorem messages_memoized (tc : TriggerContext) (ms : List Message)
    (h1 : tc.onceDone = false) (h2 : tc.messageCallback = some ms) :
    (TriggerContext.Messages tc).fst = ms ∧
    (TriggerContext.Messages tc).snd.fetches = tc.fetches + 1 ∧
    TriggerContext.Messages (TriggerContext.Messages tc).snd =
      ((TriggerContext.Messages tc).fst,
       (TriggerContext.Messages tc).snd) := by
  simp [TriggerContext.Messages, h1, h2]

theorem messages_memoized_witness :
    sampleContextSix.onceDone = false ∧
    sampleContextSix.messageCallback = some sampleMessages ∧
    ((TriggerContext.Messages sampleContextSix).fst = sampleMessages ∧
     (TriggerContext.Messages sampleContextSix).snd.fetches =
       sampleContextSix.fetches + 1 ∧
     TriggerContext.Messages (TriggerContext.Messages
         sampleContextSix).snd =
       ((TriggerContext.Messages sampleContextSix).fst,
        (TriggerContext.Messages sampleContextSix).snd)) :=
  ⟨rfl, rfl, messages_memoized sampleContextSix sampleMessages rfl rfl⟩

theorem sendLoop_reaches_response (sc : Nat) (body : String)
    (rest : List HTTPOutcome) :
    ∀ (pre : List HTTPOutcome) (acc : Option String),
      sendLoop (pre ++ HTTPOutcome.response sc body :: rest) acc = none := by
  intro pre
  induction pre with
  | nil => intro acc; rfl
  | cons o t ih =>
    intro acc
    simp only [List.cons_append, sendLoop]
    cases h : sendEventToServer o with
    | none => simp
    | some e => simpa [h] using ih (some e)

/-- C10: any received HTTP response — whatever its status code — makes
sendEventToServer return nil; an error arises only from building the
request, performing it or reading the body; hence Send reports overall
success whenever some server returns a response, stopping there. -/
theorem send_ignores_http_status :
    (∀ (sc : Nat) (body : String),
        sendEventToServer (HTTPOutcome.response sc body) = none) ∧
    (∀ (o : HTTPOutcome) (e : String), sendEventToServer o = some e →
        (∃ e2, o = HTTPOutcome.newRequestFail e2) ∨
        (∃ e2, o = HTTPOutcome.doFail e2) ∨
        (∃ e2, o = HTTPOutcome.readBodyFail e2)) ∧
    (∀ (pre rest : List HTTPOutcome) (sc : Nat) (body : String),
        Send (pre ++ HTTPOutcome.response sc body :: rest) = none) := by
  refine ⟨fun sc body => rfl, ?_, ?_⟩
  · intro o e h
    cases o with
    | newRequestFail e2 => exact Or.inl ⟨e2, rfl⟩
    | doFail e2 => exact Or.inr (Or.inl ⟨e2, rfl⟩)
    | readBodyFail e2 => exact Or.inr (Or.inr ⟨e2, rfl⟩)
    | response sc body => cases h
  · intro pre rest sc body
    exact sendLoop_reaches_response sc body rest pre none

theorem send_ignores_http_status_witness :
    sendEventToServer (HTTPOutcome.doFail "conn refused") =
      some ("request failed: " ++ "conn refused") ∧
    ((∃ e2, HTTPOutcome.doFail "conn refused" =
        HTTPOutcome.newRequestFail e2) ∨
     (∃ e2, HTTPOutcome.doFail "conn refused" =
        HTTPOutcome.doFail e2) ∨
     (∃ e2, HTTPOutcome.doFail "conn refused" =
        HTTPOutcome.readBodyFail e2)) ∧
    Send [HTTPOutcome.doFail "conn refused",
          HTTPOutcome.response 500 "rejected"] = none :=
  ⟨rfl,
   send_ignores_http_status.2.1 (HTTPOutcome.doFail "conn refused")
     ("request failed: " ++ "conn refused") rfl,
   send_ignores_http_status.2.2 [HTTPOutcome.doFail "conn refused"] []
     500 "rejected"⟩

/-- C2 counterexample: pass 3 over one ready collecting group (id 1)
whose six events are in the store, with the count round-trip failing:
the code logs, stamps event-count 0, still transitions the group to
pending and still publishes the group-pending event — so at the instant
of transition the event-count field (0) differs from the store's count
(6), refuting the claim as stated. -/
theorem pending_group_count_error :
    (pendingMessageGroup 10 (fun _ => true) (fun _ => false)
        sampleMessages [sampleGroup]).fst =
      [{sampleGroup with messageCount := 0,
                         status := MessageGroupStatus.pending}] ∧
    (pendingMessageGroup 10 (fun _ => true) (fun _ => false)
        sampleMessages [sampleGroup]).snd.fst =
      [MessageGroupPendingEvent.mk
        {sampleGroup with messageCount := 0,
                          status := MessageGroupStatus.pending}] ∧
    countGroupMessages sampleMessages sampleGroup.id = 6 ∧
    ({sampleGroup with messageCount := 0,
                       status := MessageGroupStatus.pending}).messageCount ≠
      countGroupMessages sampleMessages sampleGroup.id := by
  refine ⟨?_, ?_, ?_, ?_⟩ <;> decide

/-- C2 (amended): when the store round-trips succeed — no persist failure
aborts the pass and the recount for the group succeeds — every group with
status collecting whose readiness time has passed is transitioned by pass
3 to pending; at that transition its event-count field equals the store's
count of events whose group-ids contain the group's id, and a
group-pending event carrying the transitioned group is published on the
in-process bus.  (When the recount fails, the group still transitions and
publishes but its event-count is stamped 0; when the persist fails, the
event is still published and the pass aborts.) -/
theorem pending_group_transition (now : Nat)
    (countFails updateFails : Nat → Bool) (msgs : List Message)
    (groups : List MessageGroup) (g : MessageGroup)
    (hupd : ∀ gid, updateFails gid = false)
    (hcnt : countFails g.id = false)
    (hg : g ∈ groups) (hc : g.status = MessageGroupStatus.collecting)
    (hr : g.Ready now = true) :
    ∃ g' : MessageGroup,
      g' ∈ (pendingMessageGroup now countFails updateFails msgs
        groups).fst ∧
      g'.id = g.id ∧ g'.status = MessageGroupStatus.pending ∧
      g'.messageCount = countGroupMessages msgs g.id ∧
      MessageGroupPendingEvent.mk g' ∈
        (pendingMessageGroup now countFails updateFails msgs
          groups).snd.fst := by
  induction groups with
  | nil => cases hg
  | cons g0 rest ih =>
    rcases List.mem_cons.mp hg with hEq | hMem
    · subst hEq
      refine ⟨{g with messageCount := countGroupMessages msgs g.id,
                      status := MessageGroupStatus.pending},
        ?_, rfl, rfl, rfl, ?_⟩ <;>
        simp [pendingMessageGroup, hc, hr, hupd g.id, hcnt]
    · obtain ⟨g', h1, h2, h3, h4, h5⟩ := ih hMem
      by_cases hcond : (g0.status = MessageGroupStatus.collecting ∧
          g0.Ready now = true)
      · refine ⟨g', ?_, h2, h3, h4, ?_⟩ <;>
          simp [pendingMessageGroup, hcond, hupd g0.id, h1, h5]
      · refine ⟨g', ?_, h2, h3, h4, ?_⟩ <;>
          simp [pendingMessageGroup, hcond, h1, h5]

theorem pending_group_transition_witness :
    (∀ gid : Nat, (fun _ : Nat => false) gid = false) ∧
    (fun _ : Nat => false) sampleGroup.id = false ∧
    sampleGroup ∈ [sampleGroup] ∧
    sampleGroup.status = MessageGroupStatus.collecting ∧
    sampleGroup.Ready 10 = true ∧
    (∃ g' : MessageGroup,
      g' ∈ (pendingMessageGroup 10 (fun _ => false) (fun _ => false)
        sampleMessages [sampleGroup]).fst ∧
      g'.id = sampleGroup.id ∧
      g'.status = MessageGroupStatus.pending ∧
      g'.messageCount = countGroupMessages sampleMessages sampleGroup.id ∧
      MessageGroupPendingEvent.mk g' ∈
        (pendingMessageGroup 10 (fun _ => false) (fun _ => false)
          sampleMessages [sampleGroup]).snd.fst) :=
  ⟨fun _ => rfl, rfl, List.mem_singleton.mpr rfl, rfl, rfl,
   pending_group_transition 10 (fun _ => false) (fun _ => false)
     sampleMessages [sampleGroup] sampleGroup (fun _ => rfl) rfl
     (List.mem_singleton.mpr rfl) rfl rfl⟩

theorem collectingGroup_self_mem (st : GroupStore) (ruleID : Nat)
    (aggKey typ : String) (readyAt : Nat) :
    (collectingGroup st ruleID aggKey typ readyAt).fst ∈
      (collectingGroup st ruleID aggKey typ readyAt).snd.groups := by
  unfold collectingGroup
  cases h : st.groups.find? (fun g =>
      g.status == MessageGroupStatus.collecting && g.ruleID == ruleID &&
      g.aggregateKey == aggKey && g.type == typ) with
  | some g => exact List.mem_of_find?_eq_some h
  | none => simp

theorem collectingGroup_mono (st : GroupStore) (ruleID : Nat)
    (aggKey typ : String) (readyAt : Nat) :
    st.groups ⊆ (collectingGroup st ruleID aggKey typ readyAt).snd.groups := by
  unfold collectingGroup
  cases h : st.groups.find? (fun g =>
      g.status == MessageGroupStatus.collecting && g.ruleID == ruleID &&
      g.aggregateKey == aggKey && g.type == typ) with
  | some g => simp
  | none => simp

theorem lookupCache_mem (cache : List (String × MessageGroup))
    (key : String) (grp : MessageGroup)
    (h : lookupCache cache key = some grp) :
    ∃ kv ∈ cache, kv.snd = grp := by
  unfold lookupCache at h
  cases hf : cache.find? (fun kv => kv.fst == key) with
  | none => rw [hf] at h; cases h
  | some kv =>
    rw [hf] at h
    exact ⟨kv, List.mem_of_find?_eq_some hf, by injection h⟩

theorem runMatchers_payload_id (ms : List MessageMatcher) :
    ∀ (msg : Message) (st : Pass1State) (ci : Bool),
      (runMatchers ms msg st ci).fst.payload = msg.payload ∧
      (runMatchers ms msg st ci).fst.id = msg.id := by
  induction ms with
  | nil => intro msg st ci; exact ⟨rfl, rfl⟩
  | cons m t ih =>
    intro msg st ci
    cases hm : m.matchFn msg.payload with
    | error e =>
      simp only [runMatchers, hm]
      exact ih msg st ci
    | ok v =>
      obtain ⟨matched, ignored⟩ := v
      cases matched with
      | false =>
        simp only [runMatchers, hm, Bool.false_eq_true, if_false]
        exact ih msg st ci
      | true =>
        cases ignored with
        | true =>
          simp only [runMatchers, hm, if_true]
          exact ih msg st true
        | false =>
          cases hl : lookupCache st.cache
              (cacheKey m.ruleID (m.finger msg.payload)
                msg.payload.type) with
          | some grp =>
            simp only [runMatchers, hm, hl, if_true, Bool.false_eq_true,
              if_false]
            exact ih _ _ ci
          | none =>
            simp only [runMatchers, hm, hl, if_true, Bool.false_eq_true,
              if_false]
            exact ih _ _ ci

theorem runMatchers_status (ms : List MessageMatcher) :
    ∀ (msg : Message) (st : Pass1State) (ci : Bool),
      (runMatchers ms msg st ci).fst.status =
        if ms.any (fun m => isGenuine m msg.payload) then
          MessageStatus.grouped
        else msg.status := by
  induction ms with
  | nil => intro msg st ci; simp [runMatchers]
  | cons m t ih =>
    intro msg st ci
    cases hm : m.matchFn msg.payload with
    | error e =>
      have hg : isGenuine m msg.payload = false := by simp [isGenuine, hm]
      simp only [runMatchers, hm, List.any_cons, hg, Bool.false_or]
      exact ih msg st ci
    | ok v =>
      obtain ⟨matched, ignored⟩ := v
      cases matched with
      | false =>
        have hg : isGenuine m msg.payload = false := by
          simp [isGenuine, hm]
        simp only [runMatchers, hm, Bool.false_eq_true, if_false,
          List.any_cons, hg, Bool.false_or]
        exact ih msg st ci
      | true =>
        cases ignored with
        | true =>
          have hg : isGenuine m msg.payload = false := by
            simp [isGenuine, hm]
          simp only [runMatchers, hm, if_true, List.any_cons, hg,
            Bool.false_or]
          exact ih msg st true
        | false =>
          have hg : isGenuine m msg.payload = true := by
            simp [isGenuine, hm]
          cases hl : lookupCache st.cache
              (cacheKey m.ruleID (m.finger msg.payload)
                msg.payload.type) with
          | some grp =>
            simp only [runMatchers, hm, hl, if_true, Bool.false_eq_true,
              if_false, List.any_cons, hg, Bool.true_or, if_true]
            rw [ih]
            simp
          | none =>
            simp only [runMatchers, hm, hl, if_true, Bool.false_eq_true,
              if_false, List.any_cons, hg, Bool.true_or, if_true]
            rw [ih]
            simp

theorem runMatchers_canIgnore (ms : List MessageMatcher) :
    ∀ (msg : Message) (st : Pass1State) (ci : Bool),
      (runMatchers ms msg st ci).snd.snd =
        (ci || ms.any (fun m => isIgnoredMatch m msg.payload)) := by
  induction ms with
  | nil => intro msg st ci; simp [runMatchers]
  | cons m t ih =>
    intro msg st ci
    cases hm : m.matchFn msg.payload with
    | error e =>
      have hg : isIgnoredMatch m msg.payload = false := by
        simp [isIgnoredMatch, hm]
      simp only [runMatchers, hm, List.any_cons, hg, Bool.false_or]
      exact ih msg st ci
    | ok v =>
      obtain ⟨matched, ignored⟩ := v
      cases matched with
      | false =>
        have hg : isIgnoredMatch m msg.payload = false := by
          simp [isIgnoredMatch, hm]
        simp only [runMatchers, hm, Bool.false_eq_true, if_false,
          List.any_cons, hg, Bool.false_or]
        exact ih msg st ci
      | true =>
        cases ignored with
        | true =>
          have hg : isIgnoredMatch m msg.payload = true := by
            simp [isIgnoredMatch, hm]
          simp only [runMatchers, hm, if_true, List.any_cons, hg,
            Bool.true_or]
          rw [ih]
          simp
        | false =>
          have hg : isIgnoredMatch m msg.payload = false := by
            simp [isIgnoredMatch, hm]
          cases hl : lookupCache st.cache
              (cacheKey m.ruleID (m.finger msg.payload)
                msg.payload.type) with
          | some grp =>
            simp only [runMatchers, hm, hl, if_true, Bool.false_eq_true,
              if_false, List.any_cons, hg, Bool.false_or]
            exact ih _ _ ci
          | none =>
            simp only [runMatchers, hm, hl, if_true, Bool.false_eq_true,
              if_false, List.any_cons, hg, Bool.false_or]
            exact ih _ _ ci

theorem runMatchers_groupIDs_length (ms : List MessageMatcher) :
    ∀ (msg : Message) (st : Pass1State) (ci : Bool),
      (runMatchers ms msg st ci).fst.groupIDs.length =
        msg.groupIDs.length + countGenuine ms msg.payload := by
  induction ms with
  | nil => intro msg st ci; simp [runMatchers, countGenuine]
  | cons m t ih =>
    intro msg st ci
    cases hm : m.matchFn msg.payload with
    | error e =>
      have hg : isGenuine m msg.payload = false := by simp [isGenuine, hm]
      simp only [runMatchers, hm]
      rw [ih]
      simp [countGenuine, List.filter_cons, hg]
    | ok v =>
      obtain ⟨matched, ignored⟩ := v
      cases matched with
      | false =>
        have hg : isGenuine m msg.payload = false := by
          simp [isGenuine, hm]
        simp only [runMatchers, hm, Bool.false_eq_true, if_false]
        rw [ih]
        simp [countGenuine, List.filter_cons, hg]
      | true =>
        cases ignored with
        | true =>
          have hg : isGenuine m msg.payload = false := by
            simp [isGenuine, hm]
          simp only [runMatchers, hm, if_true]
          rw [ih]
          simp [countGenuine, List.filter_cons, hg]
        | false =>
          have hg : isGenuine m msg.payload = true := by
            simp [isGenuine, hm]
          cases hl : lookupCache st.cache
              (cacheKey m.ruleID (m.finger msg.payload)
                msg.payload.type) with
          | some grp =>
            simp only [runMatchers, hm, hl, if_true, Bool.false_eq_true,
              if_false]
            rw [ih]
            simp [countGenuine, List.filter_cons, hg]
            omega
          | none =>
            simp only [runMatchers, hm, hl, if_true, Bool.false_eq_true,
              if_false]
            rw [ih]
            simp [countGenuine, List.filter_cons, hg]
            omega

theorem runMatchers_store_mono (ms : List MessageMatcher) :
    ∀ (msg : Message) (st : Pass1State) (ci : Bool),
      st.store.groups ⊆ (runMatchers ms msg st ci).snd.fst.store.groups := by
  induction ms with
  | nil => intro msg st ci; exact fun x hx => hx
  | cons m t ih =>
    intro msg st ci
    cases hm : m.matchFn msg.payload with
    | error e =>
      simp only [runMatchers, hm]
      exact ih msg st ci
    | ok v =>
      obtain ⟨matched, ignored⟩ := v
      cases matched with
      | false =>
        simp only [runMatchers, hm, Bool.false_eq_true, if_false]
        exact ih msg st ci
      | true =>
        cases ignored with
        | true =>
          simp only [runMatchers, hm, if_true]
          exact ih msg st true
        | false =>
          cases hl : lookupCache st.cache
              (cacheKey m.ruleID (m.finger msg.payload)
                msg.payload.type) with
          | some grp =>
            simp only [runMatchers, hm, hl, if_true, Bool.false_eq_true,
              if_false]
            exact ih _ _ ci
          | none =>
            simp only [runMatchers, hm, hl, if_true, Bool.false_eq_true,
              if_false]
            intro x hx
            exact ih _ _ ci (collectingGroup_mono st.store m.ruleID
              (m.finger msg.payload) msg.payload.type m.expectReadyAt hx)

theorem runMatchers_cache (ms : List MessageMatcher) :
    ∀ (msg : Message) (st : Pass1State) (ci : Bool), cacheCoherent st →
      cacheCoherent (runMatchers ms msg st ci).snd.fst ∧
      ∀ gid ∈ (runMatchers ms msg st ci).fst.groupIDs,
        gid ∈ msg.groupIDs ∨
        ∃ g ∈ (runMatchers ms msg st ci).snd.fst.store.groups,
          g.id = gid := by
  induction ms with
  | nil =>
    intro msg st ci hco
    exact ⟨hco, fun gid hg => Or.inl hg⟩
  | cons m t ih =>
    intro msg st ci hco
    cases hm : m.matchFn msg.payload with
    | error e =>
      simp only [runMatchers, hm]
      exact ih msg st ci hco
    | ok v =>
      obtain ⟨matched, ignored⟩ := v
      cases matched with
      | false =>
        simp only [runMatchers, hm, Bool.false_eq_true, if_false]
        exact ih msg st ci hco
      | true =>
        cases ignored with
        | true =>
          simp only [runMatchers, hm, if_true]
          exact ih msg st true hco
        | false =>
          cases hl : lookupCache st.cache
              (cacheKey m.ruleID (m.finger msg.payload)
                msg.payload.type) with
          | some grp =>
            simp only [runMatchers, hm, hl, if_true, Bool.false_eq_true,
              if_false]
            have hgrp : grp ∈ st.store.groups := by
              obtain ⟨kv, hkv, hkveq⟩ := lookupCache_mem st.cache _ grp hl
              exact hkveq ▸ hco kv hkv
            obtain ⟨hco', hprov⟩ := ih
              {msg with groupIDs := msg.groupIDs ++ [grp.id],
                        status := MessageStatus.grouped} st ci hco
            refine ⟨hco', fun gid hg => ?_⟩
            rcases hprov gid hg with hmem | hex
            · rcases List.mem_append.mp hmem with hold | hnew
              · exact Or.inl hold
              · refine Or.inr ⟨grp, ?_, ?_⟩
                · exact runMatchers_store_mono t _ st ci hgrp
                · exact (List.mem_singleton.mp hnew).symm
            · exact Or.inr hex
          | none =>
            simp only [runMatchers, hm, hl, if_true, Bool.false_eq_true,
              if_false]
            have hgrp : (collectingGroup st.store m.ruleID
                (m.finger msg.payload) msg.payload.type
                m.expectReadyAt).fst ∈
                (collectingGroup st.store m.ruleID (m.finger msg.payload)
                  msg.payload.type m.expectReadyAt).snd.groups :=
              collectingGroup_self_mem st.store m.ruleID
                (m.finger msg.payload) msg.payload.type m.expectReadyAt
            have hco2 : cacheCoherent
                ⟨(collectingGroup st.store m.ruleID (m.finger msg.payload)
                    msg.payload.type m.expectReadyAt).snd,
                 st.cache ++ [(cacheKey m.ruleID (m.finger msg.payload)
                    msg.payload.type,
                  (collectingGroup st.store m.ruleID (m.finger msg.payload)
                    msg.payload.type m.expectReadyAt).fst)]⟩ := by
              intro kv hkv
              rcases List.mem_append.mp hkv with hold | hnew
              · exact collectingGroup_mono st.store m.ruleID
                  (m.finger msg.payload) msg.payload.type m.expectReadyAt
                  (hco kv hold)
              · have : kv = (cacheKey m.ruleID (m.finger msg.payload)
                    msg.payload.type,
                  (collectingGroup st.store m.ruleID (m.finger msg.payload)
                    msg.payload.type m.expectReadyAt).fst) := by
                  simpa using hnew
                rw [this]
                exact hgrp
            obtain ⟨hco', hprov⟩ := ih
              {msg with groupIDs := msg.groupIDs ++
                  [(collectingGroup st.store m.ruleID (m.finger msg.payload)
                    msg.payload.type m.expectReadyAt).fst.id],
                        status := MessageStatus.grouped} _ ci hco2
            refine ⟨hco', fun gid hg => ?_⟩
            rcases hprov gid hg with hmem | hex
            · rcases List.mem_append.mp hmem with hold | hnew
              · exact Or.inl hold
              · refine Or.inr ⟨(collectingGroup st.store m.ruleID
                  (m.finger msg.payload) msg.payload.type
                  m.expectReadyAt).fst, ?_, ?_⟩
                · exact runMatchers_store_mono t _ _ ci hgrp
                · exact (List.mem_singleton.mp hnew).symm
            · exact Or.inr hex

theorem not_matched_not_genuine (m : MessageMatcher) (p : MessagePayload)
    (h : isMatchedAtAll m p = false) :
    isGenuine m p = false ∧ isIgnoredMatch m p = false := by
  unfold isMatchedAtAll at h
  cases hm : m.matchFn p with
  | error e => simp [isGenuine, isIgnoredMatch, hm]
  | ok v =>
    obtain ⟨matched, ignored⟩ := v
    rw [hm] at h
    simp at h
    subst h
    simp [isGenuine, isIgnoredMatch, hm]

/-- C1: for every pending event processed by an aggregation pass, the
final status follows the decision matrix: if at least one enabled rule
genuinely matches (matched and not ignored), the status becomes grouped
and one matched group id is appended per genuine match, each id that of a
group present in the store afterwards; if no rule genuinely matches but
some matching rule flagged it ignored, the status becomes ignored; if no
rule matches at all, the status becomes canceled. -/
theorem grouping_decision_matrix (matchers : List MessageMatcher)
    (msg : Message) (st : Pass1State)
    (hpend : msg.status = MessageStatus.pending)
    (hco : cacheCoherent st) :
    ((∃ m ∈ matchers, isGenuine m msg.payload = true) →
       (processMessage matchers msg st).fst.status =
         MessageStatus.grouped ∧
       (processMessage matchers msg st).fst.groupIDs.length =
         msg.groupIDs.length + countGenuine matchers msg.payload ∧
       (∀ gid ∈ (processMessage matchers msg st).fst.groupIDs,
         gid ∈ msg.groupIDs ∨
         ∃ g ∈ (processMessage matchers msg st).snd.store.groups,
           g.id = gid)) ∧
    ((∀ m ∈ matchers, isGenuine m msg.payload = false) →
     (∃ m ∈ matchers, isIgnoredMatch m msg.payload = true) →
       (processMessage matchers msg st).fst.status =
         MessageStatus.ignored) ∧
    ((∀ m ∈ matchers, isMatchedAtAll m msg.payload = false) →
       (processMessage matchers msg st).fst.status =
         MessageStatus.canceled) := by
  have hst := runMatchers_status matchers msg st false
  have hci := runMatchers_canIgnore matchers msg st false
  have hlen := runMatchers_groupIDs_length matchers msg st false
  have hcache := runMatchers_cache matchers msg st false hco
  refine ⟨?_, ?_, ?_⟩
  · rintro ⟨m, hmem, hgen⟩
    have hany : matchers.any (fun m => isGenuine m msg.payload) = true :=
      List.any_eq_true.mpr ⟨m, hmem, hgen⟩
    rw [hany] at hst
    simp only [if_true] at hst
    have hpm : processMessage matchers msg st =
        ((runMatchers matchers msg st false).fst,
         (runMatchers matchers msg st false).snd.fst) := by
      simp [processMessage, hst]
    rw [hpm]
    exact ⟨hst, hlen, hcache.2⟩
  · intro hnog hsome
    have hany : matchers.any (fun m => isGenuine m msg.payload) = false :=
      List.any_eq_false.mpr (fun m hm => by simp [hnog m hm])
    have hanyig : matchers.any (fun m => isIgnoredMatch m msg.payload) =
        true := List.any_eq_true.mpr hsome
    rw [hany] at hst
    simp only [Bool.false_eq_true, if_false] at hst
    simp [processMessage, hst, hpend, hci, hanyig]
  · intro hnom
    have hany : matchers.any (fun m => isGenuine m msg.payload) = false :=
      List.any_eq_false.mpr (fun m hm => by
        simp [(not_matched_not_genuine m msg.payload (hnom m hm)).1])
    have hanyig : matchers.any (fun m => isIgnoredMatch m msg.payload) =
        false :=
      List.any_eq_false.mpr (fun m hm => by
        simp [(not_matched_not_genuine m msg.payload (hnom m hm)).2])
    rw [hany] at hst
    simp only [Bool.false_eq_true, if_false] at hst
    simp [processMessage, hst, hpend, hci, hanyig]

theorem grouping_decision_matrix_witness :
    sampleMessagePending.status = MessageStatus.pending ∧
    cacheCoherent emptyPass1 ∧
    (processMessage [sampleMatcherGenuine] sampleMessagePending
        emptyPass1).fst.status = MessageStatus.grouped ∧
    (processMessage [sampleMatcherIgnored] sampleMessagePending
        emptyPass1).fst.status = MessageStatus.ignored ∧
    (processMessage [sampleMatcherError] sampleMessagePending
        emptyPass1).fst.status = MessageStatus.canceled := by
  have hco : cacheCoherent emptyPass1 := by
    intro kv hkv
    exact absurd hkv (List.not_mem_nil kv)
  refine ⟨rfl, hco, ?_, ?_, ?_⟩
  · exact ((grouping_decision_matrix [sampleMatcherGenuine]
      sampleMessagePending emptyPass1 rfl hco).1
      ⟨sampleMatcherGenuine, by simp, by simp [isGenuine,
        sampleMatcherGenuine]⟩).1
  · exact (grouping_decision_matrix [sampleMatcherIgnored]
      sampleMessagePending emptyPass1 rfl hco).2.1
      (fun m hm => by
        rw [List.mem_singleton.mp hm]
        simp [isGenuine, sampleMatcherIgnored])
      ⟨sampleMatcherIgnored, by simp, by simp [isIgnoredMatch,
        sampleMatcherIgnored]⟩
  · exact (grouping_decision_matrix [sampleMatcherError]
      sampleMessagePending emptyPass1 rfl hco).2.2
      (fun m hm => by
        rw [List.mem_singleton.mp hm]
        simp [isMatchedAtAll, sampleMatcherError])

theorem processMessage_not_pending (matchers : List MessageMatcher)
    (msg : Message) (st : Pass1State) :
    (processMessage matchers msg st).fst.status ≠
      MessageStatus.pending := by
  by_cases h : (runMatchers matchers msg st false).fst.status =
      MessageStatus.pending
  · simp only [processMessage, h, if_true]
    cases hci : (runMatchers matchers msg st false).snd.snd <;>
      simp [hci]
  · simp [processMessage, h]

theorem groupingPass1_not_pending (matchers : List MessageMatcher) :
    ∀ (msgs : List Message) (st : Pass1State),
      ∀ m ∈ (groupingPass1 matchers msgs st).fst,
        m.status ≠ MessageStatus.pending := by
  intro msgs
  induction msgs with
  | nil =>
    intro st m hm
    simp [groupingPass1] at hm
  | cons msg rest ih =>
    intro st m hm
    by_cases hp : msg.status = MessageStatus.pending
    · simp only [groupingPass1, if_pos hp] at hm
      rcases List.mem_cons.mp hm with hEq | hMem
      · rw [hEq]; exact processMessage_not_pending matchers msg st
      · exact ih _ m hMem
    · simp only [groupingPass1, if_neg hp] at hm
      rcases List.mem_cons.mp hm with hEq | hMem
      · rw [hEq]; exact hp
      · exact ih _ m hMem

theorem groupingPass2_not_pending (matchers : List MessageMatcher)
    (msgs : List Message)
    (h : ∀ m ∈ msgs, m.status ≠ MessageStatus.pending) :
    ∀ m ∈ groupingPass2 matchers msgs,
      m.status ≠ MessageStatus.pending := by
  intro m hm
  unfold groupingPass2 at hm
  obtain ⟨m0, hm0, hEq⟩ := List.mem_map.mp hm
  subst hEq
  by_cases hc : m0.status = MessageStatus.canceled
  · by_cases ha : anyMatcherMatches matchers m0 = true <;>
      simp [hc, ha, hc ▸ (by simp : MessageStatus.canceled ≠
        MessageStatus.pending)]
  · simpa [hc] using h m0 hm0

theorem groupingPass1_no_pending (matchers : List MessageMatcher) :
    ∀ (msgs : List Message) (st : Pass1State),
      (∀ m ∈ msgs, m.status ≠ MessageStatus.pending) →
      groupingPass1 matchers msgs st = (msgs, st) := by
  intro msgs
  induction msgs with
  | nil => intro st h; rfl
  | cons msg rest ih =>
    intro st h
    have hp : ¬ msg.status = MessageStatus.pending :=
      h msg (List.mem_cons_self _ _)
    simp only [groupingPass1, if_neg hp]
    rw [ih st (fun m hm => h m (List.mem_cons_of_mem _ hm))]

theorem groupingPass2_idem (matchers : List MessageMatcher)
    (msgs : List Message) :
    groupingPass2 matchers (groupingPass2 matchers msgs) =
      groupingPass2 matchers msgs := by
  unfold groupingPass2
  rw [List.map_map]
  apply List.map_congr_left
  intro m _
  by_cases hc : m.status = MessageStatus.canceled
  · by_cases ha : anyMatcherMatches matchers m = true <;>
      simp [hc, ha]
  · simp [hc]

theorem pendingMessageGroup_idem (now : Nat)
    (countFails updateFails : Nat → Bool) (msgs : List Message) :
    ∀ (groups : List MessageGroup),
      (pendingMessageGroup now countFails updateFails msgs
        (pendingMessageGroup now countFails updateFails msgs
          groups).fst).fst =
      (pendingMessageGroup now countFails updateFails msgs groups).fst := by
  intro groups
  induction groups with
  | nil => rfl
  | cons g0 rest ih =>
    by_cases hcond : (g0.status = MessageGroupStatus.collecting ∧
        g0.Ready now = true)
    · cases hu : updateFails g0.id with
      | true =>
        simp only [pendingMessageGroup, if_pos hcond, hu, if_true]
      | false =>
        simp only [pendingMessageGroup, if_pos hcond, hu,
          Bool.false_eq_true, if_false]
        simp [pendingMessageGroup, ih]
    · simp only [pendingMessageGroup, if_neg hcond]
      rw [ih]

/-- C3: running the aggregation job twice back-to-back on an unchanged
corpus (no events pushed between runs, matchers unchanged, clock
constant, store round-trip outcomes deterministic per group) yields
after the second run the same event and group state as after the first:
the second run finds no pending events, re-persists canceled events
unchanged, leaves expired and grouped events untouched and transitions
no additional groups. -/
theorem aggregation_idempotent (matchers : List MessageMatcher)
    (now : Nat) (countFails updateFails : Nat → Bool) (st : AggState) :
    (handleAggregation matchers now countFails updateFails
        (handleAggregation matchers now countFails updateFails
          st).fst).fst =
      (handleAggregation matchers now countFails updateFails st).fst := by
  have hnp : ∀ m ∈ groupingPass2 matchers
      (groupingPass1 matchers st.messages
        ⟨⟨st.groups, st.nextID⟩, []⟩).fst,
      m.status ≠ MessageStatus.pending :=
    groupingPass2_not_pending matchers _
      (groupingPass1_not_pending matchers st.messages _)
  simp only [handleAggregation, groupingMessages]
  rw [groupingPass1_no_pending matchers _ _ hnp]
  simp only []
  rw [groupingPass2_idem]
  rw [pendingMessageGroup_idem]

end Adanos
